import Mathlib

/-!
Verification development for the lead-scraping pipeline.

The Python modules under scrutiny are embedded shallowly: each relevant
function is translated into an executable Lean definition over `String`
and `List Char`.  External collaborators (the HTTP transport, the HTML
parser output, the third-party address validator, and the hash-ordering
of Python `set` iteration) are passed in as explicit function parameters,
so that every pipeline stage itself is a pure Lean function mirroring the
source line by line.
-/

namespace Scraping

/-! ### Character and string primitives (ASCII semantics of the Python text ops) -/

/-- ASCII lowercase conversion of one character, as Python `str.lower` acts on ASCII. -/
def pyLowerChar (c : Char) : Char :=
  if 65 ≤ c.toNat ∧ c.toNat ≤ 90 then Char.ofNat (c.toNat + 32) else c

/-- ASCII uppercase conversion of one character, as Python `str.upper` acts on ASCII. -/
def pyUpperChar (c : Char) : Char :=
  if 97 ≤ c.toNat ∧ c.toNat ≤ 122 then Char.ofNat (c.toNat - 32) else c

/-- Lowercase a whole string. -/
def pyLower (s : String) : String := String.mk (s.data.map pyLowerChar)

/-- Decimal digit in the sense of the regex class `\d` (ASCII). -/
def isDigitCh (c : Char) : Bool := 48 ≤ c.toNat && c.toNat ≤ 57

/-- Lowercase ASCII letter. -/
def isLowerCh (c : Char) : Bool := 97 ≤ c.toNat && c.toNat ≤ 122

/-- Uppercase ASCII letter. -/
def isUpperCh (c : Char) : Bool := 65 ≤ c.toNat && c.toNat ≤ 90

/-- ASCII letter. -/
def isAlphaCh (c : Char) : Bool := isLowerCh c || isUpperCh c

/-- Word character in the sense of the regex class `\w` (ASCII). -/
def isWordCh (c : Char) : Bool := isAlphaCh c || isDigitCh c || c = '_'

/-- Whitespace in the sense of the regex class `\s` (ASCII). -/
def isSpaceCh (c : Char) : Bool :=
  c = ' ' || c = '\t' || c = '\n' || c = '\r' || c = '\x0b' || c = '\x0c'

/-- Word-status of the character on one side of a position; out of range counts as non-word. -/
def wordO : Option Char → Bool
  | none => false
  | some c => isWordCh c

/-- Consume an exact literal prefix, returning the remainder on success. -/
def dropLit : List Char → List Char → Option (List Char)
  | [], cs => some cs
  | _ :: _, [] => none
  | l :: ls, c :: cs => if c = l then dropLit ls cs else none

/-- Does `cs` start with the literal string `pat`? -/
def startsWithStr (cs : List Char) (pat : String) : Bool := (dropLit pat.data cs).isSome

/-- Occurrence of `pat` anywhere inside the haystack list. -/
def listHasSub (pat : List Char) : List Char → Bool
  | [] => pat.isPrefixOf []
  | c :: cs => pat.isPrefixOf (c :: cs) || listHasSub pat cs

/-- Substring containment, the semantics of the Python `in` test on strings. -/
def strHas (hay pat : String) : Bool := listHasSub pat.data hay.data

/-- Suffix test, the semantics of a `$`-anchored regex tail. -/
def strEnds (hay sfx : String) : Bool := sfx.data.isSuffixOf hay.data

/-- Numeric value of a run of decimal digits, the semantics of Python `int`. -/
def digitsVal (ds : List Char) : Nat := ds.foldl (fun n c => n * 10 + (c.toNat - 48)) 0

/-- Python `str.title`: uppercase every cased character that follows a non-cased one,
lowercase the rest.  The boolean carries whether the previous character was a letter. -/
def pyTitleAux : Bool → List Char → List Char
  | _, [] => []
  | prevAlpha, c :: cs =>
    (if isAlphaCh c && !prevAlpha then pyUpperChar c else pyLowerChar c) ::
      pyTitleAux (isAlphaCh c) cs

/-- Python `str.title` on a whole string. -/
def pyTitle (s : String) : String := String.mk (pyTitleAux false s.data)

/-- Python `str.strip`: remove leading and trailing whitespace. -/
def pyStrip (s : String) : String :=
  String.mk (((s.data.dropWhile isSpaceCh).reverse.dropWhile isSpaceCh).reverse)

/-- Python `' '.join`-style concatenation with a separator. -/
def pyJoin (sep : String) : List String → String
  | [] => ""
  | [s] => s
  | s :: rest => s ++ sep ++ pyJoin sep rest

/-! ### Facts about lowercasing needed for the email dedup property -/

theorem pyLowerChar_toNat_of_upper (c : Char) (h : 65 ≤ c.toNat ∧ c.toNat ≤ 90) :
    (pyLowerChar c).toNat = c.toNat + 32 := by
  unfold pyLowerChar
  rw [if_pos h]
  have hv : (c.toNat + 32).isValidChar := Or.inl (by omega)
  unfold Char.ofNat
  rw [dif_pos hv]
  unfold Char.ofNatAux Char.toNat
  simp [UInt32.toNat, UInt32.ofNatCore]

theorem pyLowerChar_idem (c : Char) : pyLowerChar (pyLowerChar c) = pyLowerChar c := by
  by_cases h : 65 ≤ c.toNat ∧ c.toNat ≤ 90
  · have ht := pyLowerChar_toNat_of_upper c h
    conv_lhs => rw [pyLowerChar]
    rw [if_neg (by omega)]
  · conv_lhs => rw [pyLowerChar, pyLowerChar, if_neg h, if_neg h]
    rw [pyLowerChar, if_neg h]

theorem pyLower_idem (s : String) : pyLower (pyLower s) = pyLower s := by
  unfold pyLower
  simp [List.map_map, Function.comp_def, pyLowerChar_idem]

/-! ### EmailExtractor (src/utils/email_extractor.py)

The source matches `EMAIL_PATTERN = \b[A-Za-z0-9._%+-]+@[A-Za-z0-9.-]+\.[A-Z|a-z]{2,}\b`
with `re.findall`, lowercases the matches into a set, and filters them through
`_is_valid_email`.  The matcher below reproduces the greedy-with-backtracking
semantics of that pattern; the third-party `email_validator` call of strict mode
is an external collaborator and is passed in as a boolean-valued parameter. -/

namespace EmailExtractor

open Scraping

/-- Character class of the local part, `[A-Za-z0-9._%+-]`. -/
def isLocalCh (c : Char) : Bool :=
  isAlphaCh c || isDigitCh c || c = '.' || c = '_' || c = '%' || c = '+' || c = '-'

/-- Character class of the domain run, `[A-Za-z0-9.-]`. -/
def isDomCh (c : Char) : Bool := isAlphaCh c || isDigitCh c || c = '.' || c = '-'

/-- Character class of the final label, `[A-Z|a-z]` (the class literally contains a bar). -/
def isTldCh (c : Char) : Bool := isAlphaCh c || c = '|'

/-- Word boundary after `k` characters of `sfx`: exactly one of the adjacent
characters is a word character; the end of input counts as non-word. -/
def bdryInside (sfx : List Char) (k : Nat) : Bool :=
  match sfx.get? (k - 1), sfx.get? k with
  | some a, some b => isWordCh a != isWordCh b
  | some a, none => isWordCh a
  | _, _ => false

/-- Greedy match of `[A-Z|a-z]{2,}\b` at the head of `sfx`: try the maximal
class run first and shrink until the trailing boundary holds, never below two. -/
def tryTldLens (sfx : List Char) : Nat → Option Nat
  | 0 => none
  | n + 1 =>
    if 2 ≤ n + 1 && bdryInside sfx (n + 1) then some (n + 1) else tryTldLens sfx n

/-- Greedy match of `[A-Za-z0-9.-]+\.[A-Z|a-z]{2,}\b` at the head of `cs`:
the counter is the candidate length of the `+`-run, tried longest first;
the char right after it must be the literal dot.  Returns the total number
of characters consumed. -/
def tryDomLens (cs : List Char) : Nat → Option Nat
  | 0 => none
  | n + 1 =>
    (if cs.get? (n + 1) = some '.' then
      let sfx := cs.drop (n + 2)
      match tryTldLens sfx (sfx.takeWhile isTldCh).length with
      | some t => some (n + 1 + 1 + t)
      | none => none
    else none).orElse fun _ => tryDomLens cs n

/-- Attempt the whole email pattern at the current position; `pv` is the
character just before the position (for the leading `\b`).  Returns the
number of characters consumed by the match. -/
def matchEmailAt (pv : Option Char) (cs : List Char) : Option Nat :=
  match cs with
  | [] => none
  | c :: _ =>
    if wordO pv != isWordCh c then
      let loc := cs.takeWhile isLocalCh
      if loc.length = 0 then none
      else
        match cs.drop loc.length with
        | '@' :: rest =>
          match tryDomLens rest (rest.takeWhile isDomCh).length with
          | some d => some (loc.length + 1 + d)
          | none => none
        | _ => none
    else none

/-- Non-overlapping left-to-right scan, the semantics of `re.findall`.
The fuel starts at the length of the text and strictly dominates the number
of steps, since every step consumes at least one character. -/
def findAllEmails : Nat → Option Char → List Char → List String
  | 0, _, _ => []
  | _, _, [] => []
  | fuel + 1, pv, c :: cs =>
    match matchEmailAt pv (c :: cs) with
    | some n =>
      let m := (c :: cs).take n
      String.mk m :: findAllEmails fuel m.getLast? ((c :: cs).drop n)
    | none => findAllEmails fuel (some c) cs

/-- The fixed exclusion list of `_is_valid_email`, checked with
`re.search(pattern, email, re.IGNORECASE)` against the whole address:
image-extension and placeholder-domain suffixes, plus density-marker substrings. -/
def excludedEmail (e : String) : Bool :=
  let l := pyLower e
  strEnds l ".png" || strEnds l ".jpg" || strEnds l ".jpeg" ||
  strEnds l ".gif" || strEnds l ".svg" ||
  strEnds l "example.com" || strEnds l "test.com" || strEnds l "sample.com" ||
  strHas l "@sentry" || strHas l "@2x." || strHas l "@3x."

/-- Embedding of `EmailExtractor._is_valid_email`; `validator` stands for the
external `email_validator.validate_email` library call of strict mode. -/
def is_valid_email (validator : String → Bool) (email : String) (validate : Bool) : Bool :=
  if excludedEmail email then false
  else if validate then validator email else true

/-- Embedding of `EmailExtractor.extract_emails`.  The parameter `setL`
models the iteration order of the Python set comprehension
`{email.lower() for email in potential_emails}`: it may list the distinct
elements in any order (the hash seed decides), which the theorems make
explicit through a permutation hypothesis. -/
def extract_emails (setL : List String → List String) (validator : String → Bool)
    (text : String) (validate : Bool) : List String :=
  if text = "" then []
  else
    let potential := findAllEmails text.data.length none text.data
    let emails := setL (potential.map pyLower)
    emails.filter fun e => is_valid_email validator e validate

theorem mem_extract_emails_lowered (setL : List String → List String)
    (hset : ∀ xs : List String, (setL xs).Perm xs.dedup)
    (validator : String → Bool) (text : String) (validate : Bool) (e : String)
    (he : e ∈ extract_emails setL validator text validate) : pyLower e = e := by
  unfold extract_emails at he
  by_cases ht : text = ""
  · simp [ht] at he
  · rw [if_neg ht] at he
    have hmem := List.mem_of_mem_filter he
    have hd := ((hset _).mem_iff).mp hmem
    rw [List.mem_dedup] at hd
    obtain ⟨x, _, hx⟩ := List.mem_map.mp hd
    rw [← hx, pyLower_idem]

/-- C6: for every input text and in both validation modes, `extract_emails`
never returns an address matching an exclusion pattern (image-extension
suffixes, placeholder domains, or the density-marker substrings, checked
against the whole matched address) and never returns two addresses that are
equal ignoring case.  The set-iteration order and the strict validator are
arbitrary. -/
theorem extract_emails_excludes_and_dedups (setL : List String → List String)
    (hset : ∀ xs : List String, (setL xs).Perm xs.dedup)
    (validator : String → Bool) (text : String) (validate : Bool) :
    (∀ e ∈ extract_emails setL validator text validate, excludedEmail e = false) ∧
    ((extract_emails setL validator text validate).map pyLower).Nodup := by
  constructor
  · intro e he
    unfold extract_emails at he
    by_cases ht : text = ""
    · simp [ht] at he
    · rw [if_neg ht] at he
      have hv := List.of_mem_filter he
      unfold is_valid_email at hv
      by_cases hx : excludedEmail e
      · rw [if_pos hx] at hv
        exact absurd hv (by simp)
      · exact Bool.of_not_eq_true hx
  · have hmapid :
        (extract_emails setL validator text validate).map pyLower =
          extract_emails setL validator text validate := by
      have := List.map_congr_left
        (f := pyLower) (g := id) (l := extract_emails setL validator text validate)
        (fun a ha => mem_extract_emails_lowered setL hset validator text validate a ha)
      simpa using this
    rw [hmapid]
    unfold extract_emails
    by_cases ht : text = ""
    · simp [ht]
    · rw [if_neg ht]
      apply List.Nodup.filter
      exact ((hset _).nodup_iff).mpr (List.nodup_dedup _)

/-- Witness for C6 at a concrete text containing an excluded address, a
placeholder domain and a case-duplicate pair. -/
theorem extract_emails_excludes_and_dedups_witness :
    (∀ e ∈ extract_emails (fun xs => xs.dedup) (fun _ => true)
        "logo@2x.png c@test.com A@B.io a@b.IO d@site.org" false,
      excludedEmail e = false) ∧
    ((extract_emails (fun xs => xs.dedup) (fun _ => true)
        "logo@2x.png c@test.com A@B.io a@b.IO d@site.org" false).map pyLower).Nodup :=
  extract_emails_excludes_and_dedups (fun xs => xs.dedup)
    (fun _ => List.Perm.refl _) (fun _ => true)
    "logo@2x.png c@test.com A@B.io a@b.IO d@site.org" false

end EmailExtractor

/-! ### NLPExtractor (src/utils/nlp_extractor.py)

The extractor lowercases the query once, then applies fixed-vocabulary and
regex heuristics.  The three `list(set(...))` conversions of the source have
no canonical order (CPython string hashing is seeded per interpreter run), so
`extract_criteria` takes the set-iteration order as an explicit parameter
`setL`, constrained in the theorems to enumerate exactly the distinct
elements of its input. -/

namespace NLPExtractor

open Scraping

def POSITION_KEYWORDS : List String :=
  ["founder", "co-founder", "ceo", "cto", "cfo", "coo", "president",
   "vp", "vice president", "director", "manager", "lead", "head",
   "engineer", "developer", "designer", "architect", "analyst",
   "executive", "officer", "partner", "owner", "principal"]

def COMPANY_TYPE_KEYWORDS : List (String × List String) :=
  [("startup", ["startup", "start-up", "startups"]),
   ("enterprise", ["enterprise", "corporation", "corporate"]),
   ("agency", ["agency", "agencies"]),
   ("consulting", ["consulting", "consultancy"]),
   ("saas", ["saas", "software as a service"]),
   ("ecommerce", ["e-commerce", "ecommerce", "online store"]),
   ("fintech", ["fintech", "financial technology"]),
   ("healthtech", ["healthtech", "health tech", "healthcare technology"])]

def INDUSTRY_KEYWORDS : List String :=
  ["tech", "technology", "software", "ai", "ml", "machine learning",
   "cloud", "saas", "fintech", "healthcare", "education", "edtech",
   "marketing", "sales", "finance", "hr", "recruiting", "legal",
   "real estate", "construction", "manufacturing", "retail",
   "hospitality", "travel", "entertainment", "media", "gaming"]

def LOCATION_KEYWORDS : List String :=
  ["san francisco", "sf", "bay area", "silicon valley", "new york",
   "nyc", "boston", "austin", "seattle", "los angeles", "la",
   "chicago", "denver", "miami", "atlanta", "london", "berlin",
   "singapore", "bangalore", "toronto", "remote", "worldwide"]

/-- Attempt of the position regex `\b<keyword>s?\b` at the current position;
`pv` is the preceding character.  The optional `s` is greedy, its failure
backtracks to the bare keyword followed by a boundary. -/
def matchWordSAt (kw : List Char) (pv : Option Char) (cs : List Char) : Bool :=
  match kw with
  | [] => false
  | k0 :: _ =>
    (wordO pv != isWordCh k0) &&
    (match dropLit kw cs with
     | none => false
     | some rest =>
       let kl := wordO kw.getLast?
       match rest with
       | 's' :: r2 => (!wordO r2.head?) || (!kl)
       | _ => kl != wordO rest.head?)

/-- Left-to-right `re.search` scan for `\b<kw>s?\b`. -/
def searchWordS (kw : List Char) : Option Char → List Char → Bool
  | _, [] => false
  | pv, c :: cs => matchWordSAt kw pv (c :: cs) || searchWordS kw (some c) cs

/-- Embedding of `_extract_positions`: every vocabulary hit is kept,
title-cased, then converted through `list(set(...))`. -/
def extract_positions (setL : List String → List String) (text : String) : List String :=
  setL ((POSITION_KEYWORDS.filter fun kw => searchWordS kw.data none text.data).map pyTitle)

/-- Embedding of `_extract_company_type`: first keyword hit wins, in the
declared order of the vocabulary map. -/
def extract_company_type (text : String) : Option String :=
  (COMPANY_TYPE_KEYWORDS.find? fun p => p.2.any fun kw => strHas text kw).map (·.1)

/-- Embedding of `_extract_industry`: first substring hit in declared order. -/
def extract_industry (text : String) : Option String :=
  INDUSTRY_KEYWORDS.find? fun k => strHas text k

/-- Embedding of `_extract_location`: first substring hit, title-cased. -/
def extract_location (text : String) : Option String :=
  (LOCATION_KEYWORDS.find? fun k => strHas text k).map pyTitle

/-- Generic left-to-right `re.search` scan for a positional matcher. -/
def reSearch {α : Type} (m : List Char → Option α) : List Char → Option α
  | [] => none
  | c :: cs => (m (c :: cs)).orElse fun _ => reSearch m cs

/-- Team-size pattern 1, `(\d+)[-–](\d+)\s*(employees?|people|team members?|members?)`,
returning the digit groups. -/
def matchTeamP1 (cs : List Char) : Option (List Nat) :=
  let d1 := cs.takeWhile isDigitCh
  if d1.length = 0 then none
  else
    match cs.drop d1.length with
    | c :: rest =>
      if c = '-' || c = '–' then
        let d2 := rest.takeWhile isDigitCh
        if d2.length = 0 then none
        else
          let r2 := (rest.drop d2.length).dropWhile isSpaceCh
          if startsWithStr r2 "employee" || startsWithStr r2 "people" ||
             startsWithStr r2 "team member" || startsWithStr r2 "member" then
            some [digitsVal d1, digitsVal d2]
          else none
      else none
    | [] => none

/-- Team-size pattern 2, `team\s*of\s*(\d+)[-–]?(\d+)?`. -/
def matchTeamP2 (cs : List Char) : Option (List Nat) :=
  match dropLit "team".data cs with
  | none => none
  | some r1 =>
    match dropLit "of".data (r1.dropWhile isSpaceCh) with
    | none => none
    | some r3 =>
      let r4 := r3.dropWhile isSpaceCh
      let d1 := r4.takeWhile isDigitCh
      if d1.length = 0 then none
      else
        let r5 := r4.drop d1.length
        let r6 := match r5 with
          | c :: rest => if c = '-' || c = '–' then rest else r5
          | [] => r5
        let d2 := r6.takeWhile isDigitCh
        if d2.length = 0 then some [digitsVal d1] else some [digitsVal d1, digitsVal d2]

/-- Team-size pattern 3, `(\d+)\s*to\s*(\d+)\s*(employees?|people)`. -/
def matchTeamP3 (cs : List Char) : Option (List Nat) :=
  let d1 := cs.takeWhile isDigitCh
  if d1.length = 0 then none
  else
    match dropLit "to".data ((cs.drop d1.length).dropWhile isSpaceCh) with
    | none => none
    | some r2 =>
      let r3 := r2.dropWhile isSpaceCh
      let d2 := r3.takeWhile isDigitCh
      if d2.length = 0 then none
      else
        let r4 := (r3.drop d2.length).dropWhile isSpaceCh
        if startsWithStr r4 "employee" || startsWithStr r4 "people" then
          some [digitsVal d1, digitsVal d2]
        else none

/-- Team-size pattern 4, `(\d+)\s*(employees?|people|team members?)`. -/
def matchTeamP4 (cs : List Char) : Option (List Nat) :=
  let d1 := cs.takeWhile isDigitCh
  if d1.length = 0 then none
  else
    let r1 := (cs.drop d1.length).dropWhile isSpaceCh
    if startsWithStr r1 "employee" || startsWithStr r1 "people" ||
       startsWithStr r1 "team member" then
      some [digitsVal d1]
    else none

def teamMatchers : List (List Char → Option (List Nat)) :=
  [matchTeamP1, matchTeamP2, matchTeamP3, matchTeamP4]

/-- The `len(groups)` dispatch of `_extract_team_size`: two digit groups give
the pair verbatim, a single group is duplicated. -/
def groupsToRange : List Nat → Option (Nat × Nat)
  | [a, b] => some (a, b)
  | [a] => some (a, a)
  | _ => none

/-- The pattern loop of `_extract_team_size`: patterns are tried in priority
order; a match whose digit-group count is not one or two falls through. -/
def teamLoop : List (List Char → Option (List Nat)) → List Char → Option (Nat × Nat)
  | [], _ => none
  | m :: ms, cs =>
    match reSearch m cs with
    | none => teamLoop ms cs
    | some gs =>
      match groupsToRange gs with
      | some r => some r
      | none => teamLoop ms cs

/-- The digit groups of the first pattern that both matches and is accepted
by the group-count dispatch; used to state what the extracted pair is made of. -/
def firstTeamGroups : List (List Char → Option (List Nat)) → List Char → Option (List Nat)
  | [], _ => none
  | m :: ms, cs =>
    match reSearch m cs with
    | none => firstTeamGroups ms cs
    | some gs =>
      if (groupsToRange gs).isSome then some gs else firstTeamGroups ms cs

/-- Embedding of `_extract_team_size`. -/
def extract_team_size (text : String) : Option (Nat × Nat) :=
  teamLoop teamMatchers text.data

/-- The fixed reference year hard-coded in `_extract_founding_year`. -/
def current_year : Int := 2026

/-- The alternation `(?:in\s+(?:the\s+)?last|within)` with greedy optional
`the`, returning the remainder on success. -/
def matchLastPhrase (cs : List Char) : Option (List Char) :=
  (match dropLit "in".data cs with
   | some r1 =>
     let sp := r1.takeWhile isSpaceCh
     if sp.length = 0 then none
     else
       let r2 := r1.drop sp.length
       let afterOpt : Option (List Char) :=
         match dropLit "the".data r2 with
         | some r3 =>
           let sp2 := r3.takeWhile isSpaceCh
           if sp2.length = 0 then none else some (r3.drop sp2.length)
         | none => none
       match afterOpt with
       | some r4 =>
         match dropLit "last".data r4 with
         | some r5 => some r5
         | none => dropLit "last".data r2
       | none => dropLit "last".data r2
   | none => none).orElse fun _ => dropLit "within".data cs

/-- Founding-year pattern 1, `(?:in\s+(?:the\s+)?last|within)\s+(\d+)\s+years?`. -/
def matchFY1 (cs : List Char) : Option Nat :=
  match matchLastPhrase cs with
  | none => none
  | some r =>
    let sp := r.takeWhile isSpaceCh
    if sp.length = 0 then none
    else
      let r1 := r.drop sp.length
      let d := r1.takeWhile isDigitCh
      if d.length = 0 then none
      else
        let r2 := r1.drop d.length
        let sp2 := r2.takeWhile isSpaceCh
        if sp2.length = 0 then none
        else if startsWithStr (r2.drop sp2.length) "year" then some (digitsVal d)
        else none

/-- The group `(\d{4})`: exactly four digit characters, no trailing boundary. -/
def matchYear4 (cs : List Char) : Option Nat :=
  let d := cs.take 4
  if d.length = 4 && d.all isDigitCh then some (digitsVal d) else none

/-- Founding-year pattern 2, `(?:started|founded)\s+in\s+(\d{4})`. -/
def matchFY2 (cs : List Char) : Option Nat :=
  match (dropLit "started".data cs).orElse fun _ => dropLit "founded".data cs with
  | none => none
  | some r =>
    let sp := r.takeWhile isSpaceCh
    if sp.length = 0 then none
    else
      match dropLit "in".data (r.drop sp.length) with
      | none => none
      | some r2 =>
        let sp2 := r2.takeWhile isSpaceCh
        if sp2.length = 0 then none else matchYear4 (r2.drop sp2.length)

/-- Founding-year pattern 3, `since\s+(\d{4})`. -/
def matchFY3 (cs : List Char) : Option Nat :=
  match dropLit "since".data cs with
  | none => none
  | some r =>
    let sp := r.takeWhile isSpaceCh
    if sp.length = 0 then none else matchYear4 (r.drop sp.length)

/-- Embedding of `_extract_founding_year` with the hard-coded reference year;
years are integers because the relative pattern subtracts. -/
def extract_founding_year (text : String) : Option (Int × Int) :=
  match reSearch matchFY1 text.data with
  | some n => some (current_year - n, current_year)
  | none =>
    match reSearch matchFY2 text.data with
    | some y => some ((y : Int), (y : Int))
    | none =>
      match reSearch matchFY3 text.data with
      | some y => some ((y : Int), current_year)
      | none => none

def STOP_WORDS : List String :=
  ["the", "a", "an", "and", "or", "but", "in", "on", "at", "to",
   "for", "of", "with", "that", "have", "has", "had", "is", "are",
   "was", "were", "be", "been", "being", "this", "these", "those"]

/-- Maximal runs of characters satisfying `p`, in order; the accumulator holds
the current run reversed. -/
def runsAux (p : Char → Bool) (cur : List Char) : List Char → List (List Char)
  | [] => if cur.isEmpty then [] else [cur.reverse]
  | c :: cs =>
    if p c then runsAux p (c :: cur) cs
    else if cur.isEmpty then runsAux p [] cs
    else cur.reverse :: runsAux p [] cs

/-- The matches of `re.findall(\b[a-z]{3,}\b, text)`: exactly the maximal
word-character runs that consist solely of lowercase letters and have length
at least three (interior boundaries are impossible inside a word run). -/
def lowerWordRuns (cs : List Char) : List (List Char) :=
  (runsAux isWordCh [] cs).filter fun r => 3 ≤ r.length && r.all isLowerCh

/-- The keyword list before the set conversion: tokenize, drop stopwords. -/
def keywordPool (text : String) : List String :=
  ((lowerWordRuns text.data).map String.mk).filter fun w => !STOP_WORDS.contains w

/-- Embedding of `_extract_general_keywords`: `list(set(keywords))[:10]`. -/
def extract_general_keywords (setL : List String → List String) (text : String) :
    List String :=
  (setL (keywordPool text)).take 10

/-- One `[A-Z][a-z]+` token with its remainder, the lowercase run maximal. -/
def capWord (cs : List Char) : Option (List Char × List Char) :=
  match cs with
  | c :: rest =>
    if isUpperCh c then
      let low := rest.takeWhile isLowerCh
      if low.length = 0 then none else some (c :: low, rest.drop low.length)
    else none
  | [] => none

/-- Trailing `\b` after a lowercase letter: the next character must be
non-word (or the input must end). -/
def bdryAfterLow (rest : List Char) : Bool := !wordO rest.head?

/-- One extension step `\s+[A-Z][a-z]+` of the company-name pattern. -/
def capExt (r : List Char) : Option (List Char × List Char) :=
  let sp := r.takeWhile isSpaceCh
  if sp.length = 0 then none
  else
    match capWord (r.drop sp.length) with
    | some (w, r2) => some (sp ++ w, r2)
    | none => none

/-- Attempt of `\b([A-Z][a-z]+(?:\s+[A-Z][a-z]+){0,2})\b` at the current
position: the counted group is greedy and backtracks from two extensions
down to none until the trailing boundary holds. -/
def matchCompanyAt (pv : Option Char) (cs : List Char) : Option (List Char × List Char) :=
  if wordO pv then none
  else
    match capWord cs with
    | none => none
    | some (w1, r1) =>
      match capExt r1 with
      | some (e1, r2) =>
        match capExt r2 with
        | some (e2, r3) =>
          if bdryAfterLow r3 then some (w1 ++ e1 ++ e2, r3)
          else if bdryAfterLow r2 then some (w1 ++ e1, r2)
          else if bdryAfterLow r1 then some (w1, r1)
          else none
        | none =>
          if bdryAfterLow r2 then some (w1 ++ e1, r2)
          else if bdryAfterLow r1 then some (w1, r1)
          else none
      | none => if bdryAfterLow r1 then some (w1, r1) else none

/-- Non-overlapping `re.findall` scan for the company-name pattern over the
original (non-lowercased) text. -/
def findCompanies : Nat → Option Char → List Char → List String
  | 0, _, _ => []
  | _, _, [] => []
  | fuel + 1, pv, c :: cs =>
    match matchCompanyAt pv (c :: cs) with
    | some (m, rest) => String.mk m :: findCompanies fuel m.getLast? rest
    | none => findCompanies fuel (some c) cs

def COMMON_WORDS : List String := ["The", "A", "An", "In", "On", "At", "To", "For"]

/-- Embedding of `_extract_company_names`. -/
def extract_company_names (setL : List String → List String) (text : String) :
    List String :=
  setL ((findCompanies text.data.length none text.data).filter
    fun m => !COMMON_WORDS.contains m)

/-- The criteria record produced by `extract_criteria`. -/
structure Criteria where
  original_query : String
  positions : List String
  company_type : Option String
  industry : Option String
  location : Option String
  team_size : Option (Nat × Nat)
  founding_year : Option (Int × Int)
  keywords : List String
  company_names : List String
deriving DecidableEq

/-- Embedding of `NLPExtractor.extract_criteria`; `setL` is the ambient
set-iteration order of the interpreter run. -/
def extract_criteria (setL : List String → List String) (text : String) : Criteria :=
  let tl := pyLower text
  { original_query := text
    positions := extract_positions setL tl
    company_type := extract_company_type tl
    industry := extract_industry tl
    location := extract_location tl
    team_size := extract_team_size tl
    founding_year := extract_founding_year tl
    keywords := extract_general_keywords setL tl
    company_names := extract_company_names setL text }

/-- The option-to-list coercion used when a query part is present. -/
def optPart : Option String → List String
  | some s => [s]
  | none => []

/-- Embedding of `NLPExtractor.generate_search_queries`. -/
def generate_search_queries (c : Criteria) : List String :=
  let base :=
    if c.positions.isEmpty then []
    else
      (c.positions.take 3).map fun pos =>
        pyJoin " " ([pos] ++ optPart c.company_type ++ optPart c.industry ++
          optPart c.location)
  let withLi :=
    match c.positions, c.company_type with
    | p0 :: _, some ct =>
      base ++ ["site:linkedin.com/in/ " ++ p0 ++ " " ++ ct ++
        (match c.industry with
         | some ind => " " ++ ind
         | none => "")]
    | _, _ => base
  let final :=
    if withLi.isEmpty && !c.keywords.isEmpty then
      withLi ++ [pyJoin " " (c.keywords.take 5)]
    else withLi
  final.take 5

/-! #### Range-shape facts for team size and founding year (C2) -/

theorem teamLoop_shape (ms : List (List Char → Option (List Nat))) (cs : List Char)
    (mn mx : Nat) (h : teamLoop ms cs = some (mn, mx)) :
    firstTeamGroups ms cs = some [mn, mx] ∨
    (firstTeamGroups ms cs = some [mn] ∧ mn = mx) := by
  induction ms with
  | nil => simp [teamLoop] at h
  | cons m ms ih =>
    rw [teamLoop] at h
    rw [firstTeamGroups]
    cases hs : reSearch m cs with
    | none =>
      simp only [hs] at h
      simp only [hs]
      exact ih h
    | some gs =>
      simp only [hs] at h
      simp only [hs]
      cases hg : groupsToRange gs with
      | none =>
        simp only [hg] at h
        simp only [hg, Option.isSome_none, Bool.false_eq_true, if_false]
        exact ih h
      | some r =>
        simp only [hg] at h
        have hr : r = (mn, mx) := by simpa using h
        subst hr
        simp only [hg, Option.isSome_some, if_true]
        match gs, hg with
        | [a, b], hg =>
          have hab : a = mn ∧ b = mx := by simpa [groupsToRange, Prod.ext_iff] using hg
          exact Or.inl (by simp [hab.1, hab.2])
        | [a], hg =>
          have hab : a = mn ∧ a = mx := by simpa [groupsToRange, Prod.ext_iff] using hg
          exact Or.inr ⟨by simp [hab.1], hab.1 ▸ hab.2⟩

theorem founding_year_min_le_max (t : String) (mn mx : Int)
    (h : extract_founding_year t = some (mn, mx)) (hle : mn ≤ current_year) :
    mn ≤ mx := by
  unfold extract_founding_year at h
  cases h1 : reSearch matchFY1 t.data with
  | some n =>
    simp only [h1, Option.some.injEq, Prod.ext_iff] at h
    exact h.2 ▸ hle
  | none =>
    simp only [h1] at h
    cases h2 : reSearch matchFY2 t.data with
    | some y =>
      simp only [h2, Option.some.injEq, Prod.ext_iff] at h
      exact h.1 ▸ h.2 ▸ le_refl _
    | none =>
      simp only [h2] at h
      cases h3 : reSearch matchFY3 t.data with
      | some y =>
        simp only [h3, Option.some.injEq, Prod.ext_iff] at h
        exact h.2 ▸ hle
      | none =>
        simp only [h3] at h
        exact absurd h (by simp)

/-- C2 (amended): the extracted pair is verbatim the matched digit groups.
A team size always consists of the digit groups of the first accepted
pattern match, duplicated when a single number was matched (then
`min = max`); a founding year satisfies `min ≤ max` whenever its `min` does
not exceed the reference year 2026.  Inverted textual ranges are taken
verbatim, so `min ≤ max` does not hold unconditionally. -/
theorem criteria_range_shape (setL : List String → List String) (t : String) :
    (∀ mn mx : Nat, (extract_criteria setL t).team_size = some (mn, mx) →
      firstTeamGroups teamMatchers (pyLower t).data = some [mn, mx] ∨
      (firstTeamGroups teamMatchers (pyLower t).data = some [mn] ∧ mn = mx)) ∧
    (∀ mn mx : Int, (extract_criteria setL t).founding_year = some (mn, mx) →
      mn ≤ current_year → mn ≤ mx) := by
  constructor
  · intro mn mx h
    have ht : (extract_criteria setL t).team_size = extract_team_size (pyLower t) := rfl
    rw [ht] at h
    exact teamLoop_shape teamMatchers (pyLower t).data mn mx h
  · intro mn mx h hle
    have hf : (extract_criteria setL t).founding_year =
        extract_founding_year (pyLower t) := rfl
    rw [hf] at h
    exact founding_year_min_le_max (pyLower t) mn mx h hle

/-- Witness for C2 (amended) at a query containing a single-number team phrase
and a `since` year below the reference year. -/
theorem criteria_range_shape_witness :
    (firstTeamGroups teamMatchers (pyLower "team of 4, since 2020").data = some [4, 4] ∨
      (firstTeamGroups teamMatchers (pyLower "team of 4, since 2020").data = some [4] ∧
        4 = 4)) ∧
    ((2020 : Int) ≤ 2026) :=
  ⟨(criteria_range_shape (fun xs => xs.dedup) "team of 4, since 2020").1 4 4 (by decide),
   (criteria_range_shape (fun xs => xs.dedup) "team of 4, since 2020").2 2020 2026
     (by decide) (by decide)⟩

/-- C2 (counterexample): an inverted textual range is taken verbatim, so the
extractor returns a team size with `min = 10 > 2 = max`, and `since 2030`
returns a founding year with `min = 2030 > 2026 = max`. -/
theorem criteria_range_counterexample :
    (extract_criteria (fun xs => xs.dedup) "10-2 employees").team_size = some (10, 2) ∧
    ¬((10 : Nat) ≤ 2) ∧
    (extract_criteria (fun xs => xs.dedup) "since 2030").founding_year =
      some (2030, 2026) ∧
    ¬((2030 : Int) ≤ 2026) :=
  ⟨by decide, by decide, by decide, by decide⟩

/-! #### Set-iteration-order facts (C3) -/

/-- One admissible set-iteration order: the distinct elements in dedup order. -/
def setOrderA : List String → List String := fun xs => xs.dedup

/-- Another admissible set-iteration order: the same elements reversed. -/
def setOrderB : List String → List String := fun xs => xs.dedup.reverse

/-- C3 (amended): `extract_criteria` is deterministic in everything except
the iteration order of the three `list(set(...))` conversions.  For any two
admissible set orders the scalar fields agree exactly, `positions` and
`company_names` agree up to permutation, and `keywords` agrees up to
permutation whenever at most ten distinct keywords occur (beyond ten, the
`[:10]` truncation selects an order-dependent subset). -/
theorem extract_criteria_hash_order (f1 f2 : List String → List String)
    (h1 : ∀ xs : List String, (f1 xs).Perm xs.dedup)
    (h2 : ∀ xs : List String, (f2 xs).Perm xs.dedup) (q : String) :
    (extract_criteria f1 q).original_query = (extract_criteria f2 q).original_query ∧
    (extract_criteria f1 q).company_type = (extract_criteria f2 q).company_type ∧
    (extract_criteria f1 q).industry = (extract_criteria f2 q).industry ∧
    (extract_criteria f1 q).location = (extract_criteria f2 q).location ∧
    (extract_criteria f1 q).team_size = (extract_criteria f2 q).team_size ∧
    (extract_criteria f1 q).founding_year = (extract_criteria f2 q).founding_year ∧
    (extract_criteria f1 q).positions.Perm (extract_criteria f2 q).positions ∧
    (extract_criteria f1 q).company_names.Perm (extract_criteria f2 q).company_names ∧
    ((keywordPool (pyLower q)).dedup.length ≤ 10 →
      (extract_criteria f1 q).keywords.Perm (extract_criteria f2 q).keywords) := by
  refine ⟨rfl, rfl, rfl, rfl, rfl, rfl, ?_, ?_, ?_⟩
  · exact ((h1 _).trans (h2 _).symm)
  · exact ((h1 _).trans (h2 _).symm)
  · intro hlen
    have e1 : (extract_criteria f1 q).keywords = f1 (keywordPool (pyLower q)) := by
      show (f1 (keywordPool (pyLower q))).take 10 = _
      exact List.take_of_length_le (by rw [(h1 _).length_eq]; exact hlen)
    have e2 : (extract_criteria f2 q).keywords = f2 (keywordPool (pyLower q)) := by
      show (f2 (keywordPool (pyLower q))).take 10 = _
      exact List.take_of_length_le (by rw [(h2 _).length_eq]; exact hlen)
    rw [e1, e2]
    exact ((h1 _).trans (h2 _).symm)

/-- Witness for C3 (amended) at the two concrete set orders and the query
used by the counterexample. -/
theorem extract_criteria_hash_order_witness :
    (extract_criteria setOrderA "tech founder").original_query =
      (extract_criteria setOrderB "tech founder").original_query ∧
    (extract_criteria setOrderA "tech founder").company_type =
      (extract_criteria setOrderB "tech founder").company_type ∧
    (extract_criteria setOrderA "tech founder").industry =
      (extract_criteria setOrderB "tech founder").industry ∧
    (extract_criteria setOrderA "tech founder").location =
      (extract_criteria setOrderB "tech founder").location ∧
    (extract_criteria setOrderA "tech founder").team_size =
      (extract_criteria setOrderB "tech founder").team_size ∧
    (extract_criteria setOrderA "tech founder").founding_year =
      (extract_criteria setOrderB "tech founder").founding_year ∧
    (extract_criteria setOrderA "tech founder").positions.Perm
      (extract_criteria setOrderB "tech founder").positions ∧
    (extract_criteria setOrderA "tech founder").company_names.Perm
      (extract_criteria setOrderB "tech founder").company_names ∧
    ((keywordPool (pyLower "tech founder")).dedup.length ≤ 10 →
      (extract_criteria setOrderA "tech founder").keywords.Perm
        (extract_criteria setOrderB "tech founder").keywords) :=
  extract_criteria_hash_order setOrderA setOrderB
    (fun _ => List.Perm.refl _) (fun xs => xs.dedup.reverse_perm) "tech founder"

/-- C3 (counterexample): two interpreter runs differing only in set-iteration
order produce unequal criteria objects for the same query: the keyword list
comes out in a different order, so `extract` is not a function of the query
alone and no stable keyword order exists in the source. -/
theorem extract_criteria_determinism_counterexample :
    (∀ xs : List String, (setOrderA xs).Perm xs.dedup) ∧
    (∀ xs : List String, (setOrderB xs).Perm xs.dedup) ∧
    extract_criteria setOrderA "tech founder" ≠
      extract_criteria setOrderB "tech founder" :=
  ⟨fun _ => List.Perm.refl _, fun xs => xs.dedup.reverse_perm, by decide⟩

/-! #### Query generation (C7) -/

/-- C7: with no positions and a non-empty keyword list, the query planner
produces exactly one query, the first five keywords joined by single spaces. -/
theorem generate_queries_keyword_fallback (c : Criteria)
    (hp : c.positions = []) (hk : c.keywords ≠ []) :
    generate_search_queries c = [pyJoin " " (c.keywords.take 5)] := by
  have hk2 : c.keywords.isEmpty = false := by
    cases hkw : c.keywords with
    | nil => exact absurd hkw hk
    | cons a l => rfl
  unfold generate_search_queries
  rw [hp]
  simp [hk2]

/-- The concrete fallback criteria of the claim. -/
def fallbackCriteria : Criteria :=
  { original_query := "", positions := [], company_type := none, industry := none,
    location := none, team_size := none, founding_year := none,
    keywords := ["tech", "founder", "startup"], company_names := [] }

/-- Witness for C7 at the concrete keyword list of the claim. -/
theorem generate_queries_keyword_fallback_witness :
    generate_search_queries fallbackCriteria = ["tech founder startup"] :=
  (generate_queries_keyword_fallback fallbackCriteria rfl (by decide)).trans (by decide)

end NLPExtractor

/-! ### ProfileScraper social links and the merge in LeadScraper (C1)

`ProfileScraper._extract_social_links` walks the anchor hrefs of a page and,
per href, tests the platform patterns in declared order, inserting the href
under the first matching platform only when that platform key is still
absent.  `LeadScraper.search_leads_by_name` then merges the scan result into
the lead with `lead_data['social_links'].update(contact_data['social_links'])`,
which is plain `dict.update`.  Dictionaries are modelled as association lists
with unique keys in insertion order, exactly the observable behavior of a
Python dict. -/

namespace ProfileScraper

open Scraping

/-- Occurrence of the literal `lit` followed by at least one character of the
class `ok`, the shape shared by all five platform regexes. -/
def hasPatMore (lit : String) (ok : Char → Bool) : List Char → Bool
  | [] => false
  | c :: cs =>
    (match dropLit lit.data (c :: cs) with
     | some (d :: _) => ok d
     | _ => false) || hasPatMore lit ok cs

/-- Class `[\w-]`. -/
def isWordDash (c : Char) : Bool := isWordCh c || c = '-'

/-- Class `[\w.-]`. -/
def isWordDotDash (c : Char) : Bool := isWordCh c || c = '.' || c = '-'

/-- The platform patterns of `_extract_social_links`, in declared order. -/
def social_platforms : List (String × String × (Char → Bool)) :=
  [("linkedin", "linkedin.com/in/", isWordDash),
   ("twitter", "twitter.com/", isWordDash),
   ("facebook", "facebook.com/", isWordDotDash),
   ("github", "github.com/", isWordDash),
   ("instagram", "instagram.com/", isWordDotDash)]

/-- First platform whose pattern matches the href (the inner loop with its
`break`); matching is case-insensitive, hence on the lowered href. -/
def findPlatform (href : String) : Option String :=
  (social_platforms.find? fun p => hasPatMore p.2.1 p.2.2 (pyLower href).data).map (·.1)

/-- The body of the href loop of `_extract_social_links`: insert under the
first matching platform only when the key is still absent. -/
def slStep (links : List (String × String)) (href : String) : List (String × String) :=
  match findPlatform href with
  | none => links
  | some plat =>
    if links.any fun kv => kv.1 == plat then links else links ++ [(plat, href)]

/-- Embedding of `_extract_social_links` over the list of anchor hrefs of the
parsed page: first writer per platform wins within one scan. -/
def extract_social_links (hrefs : List String) : List (String × String) :=
  hrefs.foldl slStep []

/-- Python dict lookup: the value stored under `k`. -/
def dlookup (k : String) (d : List (String × String)) : Option String :=
  (d.find? fun kv => kv.1 == k).map (·.2)

/-- Python dict item assignment `d[k] = v`: replace in place when the key
exists, append otherwise. -/
def pyDictSet (d : List (String × String)) (k v : String) : List (String × String) :=
  if d.any fun kv => kv.1 == k then
    d.map fun kv => if kv.1 == k then (kv.1, v) else kv
  else d ++ [(k, v)]

/-- Python `dict.update`: assign every item of `upd` into `old` in order. -/
def pyDictUpd (old upd : List (String × String)) : List (String × String) :=
  upd.foldl (fun d kv => pyDictSet d kv.1 kv.2) old

/-- The value of the last item of `upd` carrying key `k`. -/
def lastVal (k : String) (upd : List (String × String)) : Option String :=
  ((upd.filter fun kv => kv.1 == k).getLast?).map (·.2)

theorem dlookup_pyDictSet_eq (d : List (String × String)) (k v : String) :
    dlookup k (pyDictSet d k v) = some v := by
  unfold pyDictSet dlookup
  by_cases h : d.any fun kv => kv.1 == k
  · rw [if_pos h, List.find?_map]
    have hkey : ((fun kv : String × String => kv.1 == k) ∘
        fun kv => if kv.1 == k then (kv.1, v) else kv) = fun kv => kv.1 == k := by
      funext kv
      by_cases hk : kv.1 = k <;> simp [hk]
    rw [hkey]
    have hs : (List.find? (fun kv : String × String => kv.1 == k) d).isSome :=
      List.find?_isSome.mpr (List.any_eq_true.mp h)
    obtain ⟨y, hy⟩ := Option.isSome_iff_exists.mp hs
    rw [hy]
    have hyk : y.1 = k := by simpa using List.find?_some hy
    simp [hyk]
  · rw [if_neg h, List.find?_append]
    have h1 : List.find? (fun kv : String × String => kv.1 == k) d = none := by
      rw [List.find?_eq_none]
      intro x hx hc
      exact h (List.any_eq_true.mpr ⟨x, hx, hc⟩)
    rw [h1]
    simp

theorem dlookup_pyDictSet_ne (d : List (String × String)) (k k2 v : String)
    (hne : k2 ≠ k) : dlookup k (pyDictSet d k2 v) = dlookup k d := by
  unfold pyDictSet dlookup
  by_cases h : d.any fun kv => kv.1 == k2
  · rw [if_pos h, List.find?_map]
    have hkey : ((fun kv : String × String => kv.1 == k) ∘
        fun kv => if kv.1 == k2 then (kv.1, v) else kv) = fun kv => kv.1 == k := by
      funext kv
      by_cases hk : kv.1 = k2 <;> simp [hk]
    rw [hkey]
    cases hy : List.find? (fun kv : String × String => kv.1 == k) d with
    | none => simp
    | some y =>
      have hyk : y.1 = k := by simpa using List.find?_some hy
      have hynek2 : ¬ y.1 = k2 := by
        rw [hyk]
        exact fun hc => hne hc.symm
      simp [hynek2]
  · rw [if_neg h, List.find?_append]
    have h2 : List.find? (fun kv : String × String => kv.1 == k) [(k2, v)] = none := by
      simp [List.find?_cons, beq_eq_false_iff_ne.mpr hne]
    rw [h2]
    cases List.find? (fun kv : String × String => kv.1 == k) d <;> simp

theorem dlookup_pyDictUpd (old upd : List (String × String)) (k : String) :
    dlookup k (pyDictUpd old upd) =
      match lastVal k upd with
      | some v => some v
      | none => dlookup k old := by
  induction upd using List.reverseRecOn with
  | nil => simp [pyDictUpd, lastVal]
  | append_singleton upd kv ih =>
    rw [pyDictUpd, List.foldl_append, List.foldl_cons, List.foldl_nil]
    by_cases hk : kv.1 = k
    · rw [← hk] at *
      rw [dlookup_pyDictSet_eq]
      have hl : lastVal kv.1 (upd ++ [kv]) = some kv.2 := by
        unfold lastVal
        rw [List.filter_append]
        have : List.filter (fun x => x.1 == kv.1) [kv] = [kv] := by simp
        rw [this, List.getLast?_concat]
        rfl
      rw [hl]
    · rw [dlookup_pyDictSet_ne _ _ _ _ hk]
      have hl : lastVal k (upd ++ [kv]) = lastVal k upd := by
        unfold lastVal
        rw [List.filter_append]
        have : List.filter (fun x => x.1 == k) [kv] = [] := by simp [hk]
        rw [this, List.append_nil]
      rw [hl]
      exact ih

theorem dlookup_slStep_foldl (hrefs : List String) (acc : List (String × String))
    (k : String) :
    dlookup k (hrefs.foldl slStep acc) =
      match dlookup k acc with
      | some v => some v
      | none => hrefs.find? fun h => findPlatform h == some k := by
  induction hrefs generalizing acc with
  | nil =>
    cases hd : dlookup k acc <;> simp [List.foldl_nil, hd]
  | cons h hs ih =>
    rw [List.foldl_cons, ih, List.find?_cons]
    cases hp : findPlatform h with
    | none =>
      have hstep : slStep acc h = acc := by simp [slStep, hp]
      rw [hstep]
      rfl
    | some plat =>
      by_cases hpk : plat = k
      · subst hpk
        by_cases hany : acc.any fun kv => kv.1 == plat
        · have hstep : slStep acc h = acc := by simp [slStep, hp, hany]
          rw [hstep]
          have hs2 : (List.find? (fun kv : String × String => kv.1 == plat) acc).isSome :=
            List.find?_isSome.mpr (List.any_eq_true.mp hany)
          obtain ⟨y, hy⟩ := Option.isSome_iff_exists.mp hs2
          have hd : dlookup plat acc = some y.2 := by
            unfold dlookup
            rw [hy]
            rfl
          rw [hd]
        · have hstep : slStep acc h = acc ++ [(plat, h)] := by simp [slStep, hp, hany]
          rw [hstep]
          have hnone : List.find? (fun kv : String × String => kv.1 == plat) acc = none := by
            rw [List.find?_eq_none]
            intro x hx hc
            exact hany (List.any_eq_true.mpr ⟨x, hx, hc⟩)
          have hd : dlookup plat acc = none := by
            unfold dlookup
            rw [hnone]
            rfl
          have hd2 : dlookup plat (acc ++ [(plat, h)]) = some h := by
            unfold dlookup
            rw [List.find?_append, hnone]
            simp [List.find?_cons]
          rw [hd2, hd]
          simp
      · have hne : (some plat == some k) = false := by simp [hpk]
        rw [hne]
        by_cases hany : acc.any fun kv => kv.1 == plat
        · have hstep : slStep acc h = acc := by simp [slStep, hp, hany]
          rw [hstep]
        · have hstep : slStep acc h = acc ++ [(plat, h)] := by simp [slStep, hp, hany]
          rw [hstep]
          have happ : dlookup k (acc ++ [(plat, h)]) = dlookup k acc := by
            unfold dlookup
            rw [List.find?_append]
            have h3 : List.find? (fun kv : String × String => kv.1 == k) [(plat, h)] = none := by
              simp [List.find?_cons, beq_eq_false_iff_ne.mpr hpk]
            rw [h3]
            cases List.find? (fun kv : String × String => kv.1 == k) acc <;> simp
          rw [happ]

/-- C1 (amended): the merge of a website-contact scan into a lead follows
`dict.update` semantics, so across scans the last writer per platform wins:
after `pyDictUpd old upd`, platform `k` maps to the value of the last `upd`
entry for `k` when one exists, falling back to the pre-existing value only
when the scan found nothing for `k`.  Only within a single scan does the
first link per platform win: the scan result maps `k` to the first href
whose first matching platform is `k`. -/
theorem social_links_merge_semantics :
    (∀ old upd : List (String × String), ∀ k : String,
      dlookup k (pyDictUpd old upd) =
        match lastVal k upd with
        | some v => some v
        | none => dlookup k old) ∧
    (∀ hrefs : List String, ∀ k : String,
      dlookup k (extract_social_links hrefs) =
        hrefs.find? fun h => findPlatform h == some k) := by
  constructor
  · exact dlookup_pyDictUpd
  · intro hrefs k
    rw [extract_social_links, dlookup_slStep_foldl]
    rfl

/-- C1 (counterexample): a lead whose `social_links` already holds a twitter
value loses it to a subsequent website-contact scan that also finds a twitter
link: `dict.update` replaces the populated key. -/
theorem social_links_no_overwrite_counterexample :
    extract_social_links ["https://twitter.com/new"] =
      [("twitter", "https://twitter.com/new")] ∧
    dlookup "twitter"
        (pyDictUpd [("twitter", "https://twitter.com/old")]
          (extract_social_links ["https://twitter.com/new"])) =
      some "https://twitter.com/new" ∧
    some "https://twitter.com/new" ≠ some "https://twitter.com/old" :=
  ⟨by decide, by decide, by decide⟩

end ProfileScraper

/-! ### Search results, profile scraping and aggregation
(src/scrapers/duckduckgo_scraper.py, src/scrapers/requests_linkedin_scraper.py,
src/lead_scraper.py, src/lead_scraper_no_chrome.py)

The HTTP transport and the HTML selector layer are external: a search
backend is a function from the query to either a failure or the parsed
result divs, and a profile fetch is a function from the URL to either a
failure or the selector-extracted page fields.  Everything downstream of
those calls is embedded from the source. -/

namespace Aggregation

open Scraping

/-- A search result as produced by the result-div parser. -/
structure SearchResult where
  title : String
  url : String
  snippet : String
deriving DecidableEq

/-- The profile-site filter used by both aggregation flows. -/
def profileFilter (r : SearchResult) : Bool := strHas r.url "linkedin.com/in/"

/-- One assignment of the dict comprehension `{p['url']: p for p in profiles}`:
a repeated URL keeps its original position but takes the new value. -/
def pyDictInsertR (d : List SearchResult) (r : SearchResult) : List SearchResult :=
  if d.any fun p => p.url == r.url then
    d.map fun p => if p.url == r.url then r else p
  else d ++ [r]

/-- The URL-keyed deduplication `{p['url']: p for p in profiles}.values()`. -/
def pyDictValuesR (rs : List SearchResult) : List SearchResult :=
  rs.foldl pyDictInsertR []

/-- The fields that the result-div selectors of `DuckDuckGoScraper.search`
can find: the `result__a` anchor (text and href) and the snippet. -/
structure RawResult where
  titleHref : Option (String × String)
  snippet : Option String
deriving DecidableEq

/-- The per-div body of the result loop, whose failures `continue`. -/
def parseResultDiv (r : RawResult) : Option SearchResult :=
  match r.titleHref with
  | none => none
  | some th =>
    let sn := match r.snippet with
      | some s => s
      | none => ""
    if th.2 ≠ "" && th.1 ≠ "" then some { title := th.1, url := th.2, snippet := sn }
    else none

/-- Embedding of `DuckDuckGoScraper.search`: a transport failure is caught
and yields the empty result list; per-div parse failures skip that div only. -/
def ddg_search (http : String → Except Unit (List RawResult)) (q : String)
    (num : Nat) : List SearchResult :=
  match http q with
  | .error _ => []
  | .ok divs => (divs.take num).filterMap parseResultDiv

/-- The selector-extracted fields of one profile page, as found by
`RequestsLinkedInScraper.scrape_profile` before its own post-processing. -/
structure Page where
  status : Nat
  name : String
  headline : String
  location : String
  about : String
  experience : List String
deriving DecidableEq

/-- The lead record; optional fields model dict keys that only some flows set. -/
structure Lead where
  url : String
  name : String
  headline : String
  location : String
  about : String
  current_company : String
  current_position : String
  experience : List String
  education : List String
  emails : List String
  search_query : Option String
  search_result_title : Option String
  search_result_snippet : Option String
  matched_criteria : Option (List String × Option String × Option String)
  linkedin_url : Option String
  title : Option String
  company : Option String
  social_links : List (String × String)
deriving DecidableEq

/-- The default-initialized `profile_data` dict of `scrape_profile`. -/
def defaultLead (url : String) : Lead :=
  { url := url, name := "", headline := "", location := "", about := "",
    current_company := "", current_position := "", experience := [],
    education := [], emails := [], search_query := none,
    search_result_title := none, search_result_snippet := none,
    matched_criteria := none, linkedin_url := none, title := none,
    company := none, social_links := [] }

/-- First occurrence split of Python `split(sep, 1)`. -/
def splitOnFirst (sep : List Char) : List Char → Option (List Char × List Char)
  | [] => none
  | c :: cs =>
    match dropLit sep (c :: cs) with
    | some rest => some ([], rest)
    | none => (splitOnFirst sep cs).map fun p => (c :: p.1, p.2)

/-- Embedding of `RequestsLinkedInScraper.scrape_profile`: a transport
failure or a non-200 status returns the default record; otherwise the
selector results are post-processed with the length and comma sanity checks
and the headline split on the first `at`. -/
def scrape_profile (fetch : String → Except Unit Page) (url : String) : Lead :=
  let base := defaultLead url
  match fetch url with
  | .error _ => base
  | .ok page =>
    if page.status ≠ 200 then base
    else
      let l1 := { base with name := page.name }
      let l2 :=
        if page.headline ≠ "" && page.headline.length < 200 then
          { l1 with headline := page.headline }
        else l1
      let l3 :=
        if l2.headline ≠ "" then
          match splitOnFirst " at ".data l2.headline.data with
          | some p =>
            { l2 with current_position := pyStrip (String.mk p.1),
                      current_company := pyStrip (String.mk p.2) }
          | none => { l2 with current_position := l2.headline }
        else l2
      let l4 :=
        if page.location ≠ "" && page.location.length < 100 &&
            page.location.data.contains ',' then
          { l3 with location := page.location }
        else l3
      let l5 :=
        if page.about ≠ "" && 20 < page.about.length then
          { l4 with about := String.mk (page.about.data.take 500) }
        else l4
      { l5 with experience := (page.experience.take 5).filterMap fun t =>
          if t ≠ "" && 10 < t.length then some (String.mk (t.data.take 200)) else none }

/-- Embedding of `RequestsLinkedInScraper.scrape_multiple_profiles`: each URL
is fetched once, in order, and only records with a non-empty name are kept. -/
def scrape_multiple_profiles (fetch : String → Except Unit Page)
    (urls : List String) : List Lead :=
  urls.foldl
    (fun profiles url =>
      let pd := scrape_profile fetch url
      if pd.name ≠ "" then profiles ++ [pd] else profiles)
    []

/-- The enrichment applied to each scraped record by the natural-language
flow of `LeadScraperNoChrome`. -/
def nlLead (fetch : String → Except Unit Page) (query : String)
    (p : SearchResult) : Lead :=
  { scrape_profile fetch p.url with
      search_query := some query,
      search_result_title := some p.title,
      search_result_snippet := some p.snippet }

/-- The aggregation stage of `LeadScraperNoChrome.search_leads_natural_language`
after query planning: run at most three planned queries, concatenate, filter
to profile URLs, deduplicate by URL, scrape at most `limit` and append every
record to the session lead collection. -/
def nl_aggregate (search : String → Nat → List SearchResult)
    (fetch : String → Except Unit Page) (query : String) (limit : Nat)
    (queries : List String) (leads : List Lead) : List Lead :=
  let allResults := (queries.take 3).foldl (fun acc q => acc ++ search q limit) []
  let uniqueProfiles := pyDictValuesR (allResults.filter profileFilter)
  (uniqueProfiles.take limit).foldl (fun ls p => ls ++ [nlLead fetch query p]) leads

/-- The full natural-language entry point: criteria extraction, query
planning, then the aggregation stage. -/
def search_leads_natural_language (setL : List String → List String)
    (search : String → Nat → List SearchResult)
    (fetch : String → Except Unit Page) (query : String) (limit : Nat)
    (leads : List Lead) : List Lead :=
  nl_aggregate search fetch query limit
    (NLPExtractor.generate_search_queries (NLPExtractor.extract_criteria setL query))
    leads

/-- The enrichment applied by the chrome variant
(`LeadScraper.search_leads_natural_language`): the scraper itself is the
collaborator function `scrapeFn`. -/
def chromeLead (scrapeFn : String → Lead) (query : String)
    (mc : List String × Option String × Option String) (p : SearchResult) : Lead :=
  { scrapeFn p.url with search_query := some query, matched_criteria := some mc }

/-- The aggregation stage of `LeadScraper.search_leads_natural_language`,
structurally identical to the no-chrome variant up to the enrichment. -/
def nl_aggregate_chrome (search : String → Nat → List SearchResult)
    (scrapeFn : String → Lead) (query : String)
    (mc : List String × Option String × Option String) (limit : Nat)
    (queries : List String) (leads : List Lead) : List Lead :=
  let allResults := (queries.take 3).foldl (fun acc q => acc ++ search q limit) []
  let uniqueProfiles := pyDictValuesR (allResults.filter profileFilter)
  (uniqueProfiles.take limit).foldl (fun ls p => ls ++ [chromeLead scrapeFn query mc p]) leads

/-- The by-company flow of `LeadScraperNoChrome.search_leads_by_company`:
falsy titles are replaced by the default list, one query per title, then the
same filter, dedup, cap and unconditional append, with the company recorded. -/
def company_aggregate (search : String → Nat → List SearchResult)
    (fetch : String → Except Unit Page) (company : String) (limit : Nat)
    (titles : List String) (leads : List Lead) : List Lead :=
  let titles2 := if titles.isEmpty then ["CEO", "CTO", "Founder", "VP", "Director"]
    else titles
  let allResults := titles2.foldl
    (fun acc t => acc ++ search ("site:linkedin.com/in " ++ t ++ " " ++ company) limit) []
  let uniqueProfiles := pyDictValuesR (allResults.filter profileFilter)
  (uniqueProfiles.take limit).foldl
    (fun ls p => ls ++ [{ scrape_profile fetch p.url with company := some company }]) leads

/-! #### Append-only folds -/

theorem foldl_append_one {α β : Type} (f : α → β) (xs : List α) (acc : List β) :
    xs.foldl (fun ls p => ls ++ [f p]) acc = acc ++ xs.map f := by
  induction xs generalizing acc with
  | nil => simp
  | cons x xs ih => simp [ih]

theorem foldl_append_many {α β : Type} (g : α → List β) (xs : List α) (acc : List β) :
    xs.foldl (fun ls p => ls ++ g p) acc = acc ++ (xs.map g).flatten := by
  induction xs generalizing acc with
  | nil => simp
  | cons x xs ih => simp [ih]

/-! #### C8: an aggregation pass with an empty planned query list is a no-op -/

/-- C8: running either natural-language aggregation stage with an empty
planned query list performs no search, no scrape and no append: the session
lead collection is returned exactly as it was, whatever it contained. -/
theorem aggregate_empty_queries_noop (search : String → Nat → List SearchResult)
    (fetch : String → Except Unit Page) (scrapeFn : String → Lead) (query : String)
    (mc : List String × Option String × Option String) (limit : Nat)
    (leads : List Lead) :
    nl_aggregate search fetch query limit [] leads = leads ∧
    nl_aggregate_chrome search scrapeFn query mc limit [] leads = leads := by
  constructor
  · unfold nl_aggregate
    simp [pyDictValuesR]
  · unfold nl_aggregate_chrome
    simp [pyDictValuesR]

/-! #### C4: query-driven flows append unconditionally, the direct flow filters -/

/-- The concatenated search results of the natural-language stage. -/
def nlResults (search : String → Nat → List SearchResult) (limit : Nat)
    (queries : List String) : List SearchResult :=
  (queries.take 3).foldl (fun acc q => acc ++ search q limit) []

/-- The deduplicated, capped profile selection of the natural-language stage. -/
def nlSelected (search : String → Nat → List SearchResult) (limit : Nat)
    (queries : List String) : List SearchResult :=
  (pyDictValuesR ((nlResults search limit queries).filter profileFilter)).take limit

/-- The profile selection of the by-company flow. -/
def companySelected (search : String → Nat → List SearchResult) (company : String)
    (limit : Nat) (titles : List String) : List SearchResult :=
  let titles2 := if titles.isEmpty then ["CEO", "CTO", "Founder", "VP", "Director"]
    else titles
  let allResults := titles2.foldl
    (fun acc t => acc ++ search ("site:linkedin.com/in " ++ t ++ " " ++ company) limit) []
  (pyDictValuesR (allResults.filter profileFilter)).take limit

theorem scrape_multiple_eq_filter (fetch : String → Except Unit Page)
    (urls : List String) :
    scrape_multiple_profiles fetch urls =
      (urls.map (scrape_profile fetch)).filter fun l => l.name != "" := by
  unfold scrape_multiple_profiles
  suffices h : ∀ acc : List Lead, urls.foldl
      (fun profiles url =>
        let pd := scrape_profile fetch url
        if pd.name ≠ "" then profiles ++ [pd] else profiles) acc =
      acc ++ (urls.map (scrape_profile fetch)).filter (fun l => l.name != "") by
    simpa using h []
  induction urls with
  | nil => intro acc; simp
  | cons u us ih =>
    intro acc
    rw [List.foldl_cons, List.map_cons, List.filter_cons]
    by_cases hn : (scrape_profile fetch u).name = ""
    · simp only [hn, ne_eq, not_true_eq_false, if_false, bne_self_eq_false]
      rw [if_neg (by simp)]
      exact ih acc
    · simp only [ne_eq, hn, not_false_eq_true, if_true]
      rw [if_pos (by simpa using hn)]
      rw [ih (acc ++ [scrape_profile fetch u])]
      simp

/-- C4: in the query-driven flows every scraped record is appended to the
session collection, with no condition on the extracted name, while the
direct URL-scrape flow keeps only records whose name is non-empty.  The two
aggregation equations show the unconditional append, the membership form
makes it usable record by record, and the last equation shows the filter of
`scrape_multiple_profiles`. -/
theorem query_flows_append_unconditionally
    (search : String → Nat → List SearchResult) (fetch : String → Except Unit Page)
    (query company : String) (limit : Nat) (queries titles : List String)
    (urls : List String) (leads : List Lead) :
    nl_aggregate search fetch query limit queries leads =
      leads ++ (nlSelected search limit queries).map (nlLead fetch query) ∧
    company_aggregate search fetch company limit titles leads =
      leads ++ (companySelected search company limit titles).map
        (fun p => { scrape_profile fetch p.url with company := some company }) ∧
    (∀ p ∈ nlSelected search limit queries,
      nlLead fetch query p ∈ nl_aggregate search fetch query limit queries leads) ∧
    scrape_multiple_profiles fetch urls =
      (urls.map (scrape_profile fetch)).filter fun l => l.name != "" := by
  refine ⟨foldl_append_one _ _ _, foldl_append_one _ _ _, ?_, scrape_multiple_eq_filter _ _⟩
  intro p hp
  rw [show nl_aggregate search fetch query limit queries leads =
      leads ++ (nlSelected search limit queries).map (nlLead fetch query) from
    foldl_append_one _ _ _]
  exact List.mem_append_right _ (List.mem_map_of_mem _ hp)

/-- A concrete search backend returning one profile result. -/
def demoSearch : String → Nat → List SearchResult := fun _ _ =>
  [{ title := "Jane Doe", url := "https://www.linkedin.com/in/janedoe", snippet := "s" }]

/-- A concrete fetch whose page yields an empty extracted name. -/
def demoFetchNameless : String → Except Unit Page := fun _ =>
  Except.ok { status := 200, name := "", headline := "", location := "", about := "",
              experience := [] }

/-- Witness for C4: a successfully fetched record with an empty extracted name
is still appended by the natural-language flow, while the direct URL-scrape
flow filters the very same record out. -/
theorem query_flows_append_unconditionally_witness :
    (nlLead demoFetchNameless "q"
        { title := "Jane Doe", url := "https://www.linkedin.com/in/janedoe", snippet := "s" }).name = "" ∧
    nlLead demoFetchNameless "q"
        { title := "Jane Doe", url := "https://www.linkedin.com/in/janedoe", snippet := "s" } ∈
      nl_aggregate demoSearch demoFetchNameless "q" 5 ["founder"] [] ∧
    scrape_multiple_profiles demoFetchNameless ["https://www.linkedin.com/in/janedoe"] = [] :=
  ⟨by decide,
   (query_flows_append_unconditionally demoSearch demoFetchNameless "q" "c" 5 ["founder"]
      [] [] []).2.2.1 _ (by decide),
   by decide⟩

/-! #### C5: URL deduplication keeps the last occurrence -/

/-- Boolean test that a result carries the given URL. -/
def urlIs (u : String) : SearchResult → Bool := fun x => x.url == u

theorem filter_map_repl_ne (d : List SearchResult) (r : SearchResult)
    (u : String) (h : r.url ≠ u) :
    (d.map fun p => if p.url == r.url then r else p).filter (urlIs u) =
      d.filter (urlIs u) := by
  induction d with
  | nil => simp
  | cons p d ih =>
    rw [List.map_cons, List.filter_cons, List.filter_cons]
    by_cases hp : p.url = r.url
    · have hpu : urlIs u p = false := by simp [urlIs, hp, h]
      have hru : urlIs u (if (p.url == r.url) = true then r else p) = false := by
        simp [urlIs, hp, h]
      rw [hpu, hru]
      simp only [Bool.false_eq_true, if_false]
      exact ih
    · have heq : (if (p.url == r.url) = true then r else p) = p := by simp [hp]
      rw [heq]
      cases hu : urlIs u p with
      | false =>
        simp only [Bool.false_eq_true, if_false]
        exact ih
      | true =>
        simp only [if_true]
        rw [ih]

theorem filter_map_repl_eq (d : List SearchResult) (r : SearchResult)
    (u : String) (h : r.url = u) :
    (d.map fun p => if p.url == r.url then r else p).filter (urlIs u) =
      (d.filter (urlIs u)).map fun _ => r := by
  induction d with
  | nil => simp
  | cons p d ih =>
    rw [List.map_cons, List.filter_cons, List.filter_cons]
    by_cases hp : p.url = r.url
    · have h1 : urlIs u p = true := by simp [urlIs, hp, h]
      have h2 : urlIs u (if (p.url == r.url) = true then r else p) = true := by
        simp [urlIs, hp, h]
      rw [h1, h2]
      simp only [if_true, List.map_cons]
      rw [ih]
      simp [hp]
    · have h1 : urlIs u p = false := by
        simp only [urlIs, beq_eq_false_iff_ne, ne_eq]
        rw [← h] at *
        exact hp
      have heq : (if (p.url == r.url) = true then r else p) = p := by simp [hp]
      rw [heq, h1]
      simp only [Bool.false_eq_true, if_false]
      exact ih

theorem pyDictInsertR_filter_ne (d : List SearchResult) (r : SearchResult)
    (u : String) (h : r.url ≠ u) :
    (pyDictInsertR d r).filter (urlIs u) = d.filter (urlIs u) := by
  unfold pyDictInsertR
  by_cases hany : d.any fun p => p.url == r.url
  · rw [if_pos hany]
    exact filter_map_repl_ne d r u h
  · rw [if_neg hany, List.filter_append]
    have : List.filter (urlIs u) [r] = [] := by simp [urlIs, h]
    rw [this, List.append_nil]

theorem pyDictInsertR_filter_eq (d : List SearchResult) (r : SearchResult)
    (u : String) (h : r.url = u) :
    (pyDictInsertR d r).filter (urlIs u) =
      if (d.filter (urlIs u)).isEmpty then [r]
      else (d.filter (urlIs u)).map fun _ => r := by
  unfold pyDictInsertR
  by_cases hany : d.any fun p => p.url == r.url
  · rw [if_pos hany]
    have hne : ¬(d.filter (urlIs u)).isEmpty = true := by
      obtain ⟨x, hx, hp⟩ := List.any_eq_true.mp hany
      have hxu : urlIs u x = true := by
        simp only [urlIs, beq_iff_eq] at hp ⊢
        rw [hp, h]
      have : x ∈ d.filter (urlIs u) := List.mem_filter.mpr ⟨hx, hxu⟩
      intro hc
      rw [List.isEmpty_iff] at hc
      rw [hc] at this
      exact List.not_mem_nil x this
    rw [if_neg hne]
    exact filter_map_repl_eq d r u h
  · rw [if_neg hany, List.filter_append]
    have h1 : d.filter (urlIs u) = [] := by
      rw [List.filter_eq_nil_iff]
      intro x hx hc
      apply hany
      refine List.any_eq_true.mpr ⟨x, hx, ?_⟩
      simp only [urlIs, beq_iff_eq] at hc ⊢
      rw [hc, h]
    have h2 : List.filter (urlIs u) [r] = [r] := by simp [urlIs, h]
    rw [h1, h2]
    simp

/-- The deduplicated collection holds, for each URL, exactly the last input
occurrence carrying that URL. -/
theorem pyDictValuesR_filter (rs : List SearchResult) (u : String) :
    (pyDictValuesR rs).filter (urlIs u) =
      match (rs.filter (urlIs u)).getLast? with
      | some r => [r]
      | none => [] := by
  induction rs using List.reverseRecOn with
  | nil => simp [pyDictValuesR]
  | append_singleton rs r ih =>
    rw [pyDictValuesR, List.foldl_append, List.foldl_cons, List.foldl_nil]
    rw [show List.foldl pyDictInsertR [] rs = pyDictValuesR rs from rfl]
    by_cases hr : r.url = u
    · rw [pyDictInsertR_filter_eq _ _ _ hr, ih]
      have hfil : (rs ++ [r]).filter (urlIs u) = rs.filter (urlIs u) ++ [r] := by
        rw [List.filter_append]
        have : List.filter (urlIs u) [r] = [r] := by simp [urlIs, hr]
        rw [this]
      rw [hfil, List.getLast?_concat]
      cases hlast : (rs.filter (urlIs u)).getLast? with
      | none => simp
      | some x => simp
    · rw [pyDictInsertR_filter_ne _ _ _ hr, ih]
      have hfil : (rs ++ [r]).filter (urlIs u) = rs.filter (urlIs u) := by
        rw [List.filter_append]
        have : List.filter (urlIs u) [r] = [] := by simp [urlIs, hr]
        rw [this, List.append_nil]
      rw [hfil]

/-- C5: when exactly two results of the concatenated search-result list share
a URL (a profile URL, so both survive the profile filter) and differ in
title, the deduplicated collection contains exactly one entry for that URL,
namely the later of the two in input order. -/
theorem dedup_last_occurrence_wins (a b c : List SearchResult) (r1 r2 : SearchResult)
    (hurl : r1.url = r2.url) (_htitle : r1.title ≠ r2.title)
    (hprof : profileFilter r1 = true)
    (hothers : ∀ x, x ∈ a ++ b ++ c → x.url ≠ r1.url) :
    (pyDictValuesR ((a ++ r1 :: (b ++ r2 :: c)).filter profileFilter)).filter
      (urlIs r1.url) = [r2] := by
  rw [pyDictValuesR_filter, List.filter_filter]
  have hr1 : (urlIs r1.url r1 && profileFilter r1) = true := by simp [urlIs, hprof]
  have hr2 : (urlIs r1.url r2 && profileFilter r2) = true := by
    have hprof2 : profileFilter r2 = true := by
      unfold profileFilter at hprof ⊢
      rw [← hurl]
      exact hprof
    simp [urlIs, ← hurl, hprof2]
  have hA : a.filter (fun x => urlIs r1.url x && profileFilter x) = [] := by
    rw [List.filter_eq_nil_iff]
    intro x hx hc
    have := hothers x (by simp [hx])
    simp [urlIs, this] at hc
  have hB : b.filter (fun x => urlIs r1.url x && profileFilter x) = [] := by
    rw [List.filter_eq_nil_iff]
    intro x hx hc
    have := hothers x (by simp [hx])
    simp [urlIs, this] at hc
  have hC : c.filter (fun x => urlIs r1.url x && profileFilter x) = [] := by
    rw [List.filter_eq_nil_iff]
    intro x hx hc
    have := hothers x (by simp [hx])
    simp [urlIs, this] at hc
  rw [List.filter_append, hA, List.nil_append, List.filter_cons, hr1,
    if_pos rfl, List.filter_append, hB, List.nil_append, List.filter_cons, hr2,
    if_pos rfl, hC]
  rfl

/-- The earlier of two same-URL results. -/
def dupEarlier : SearchResult :=
  { title := "Jane Doe - Founder", url := "https://www.linkedin.com/in/janedoe",
    snippet := "s1" }

/-- The later of two same-URL results, with a different title. -/
def dupLater : SearchResult :=
  { title := "Jane Doe - CEO", url := "https://www.linkedin.com/in/janedoe",
    snippet := "s2" }

/-- Witness for C5 at a concrete two-element result list. -/
theorem dedup_last_occurrence_wins_witness :
    (pyDictValuesR (([] ++ dupEarlier :: ([] ++ dupLater :: [])).filter
      profileFilter)).filter (urlIs dupEarlier.url) = [dupLater] :=
  dedup_last_occurrence_wins [] [] [] dupEarlier dupLater rfl (by decide) (by decide)
    (by simp)

/-! #### C9: per-item failure isolation, no abort, no retry -/

/-- The search stage over the planned queries (at most three are run). -/
def searchStage (http : String → Except Unit (List RawResult)) (num : Nat)
    (queries : List String) : List SearchResult :=
  (queries.take 3).foldl (fun acc q => acc ++ ddg_search http q num) []

/-- A successful response whose selectors find nothing. -/
def emptyPage : Page :=
  { status := 200, name := "", headline := "", location := "", about := "",
    experience := [] }

theorem ddg_search_error (http : String → Except Unit (List RawResult))
    (q : String) (num : Nat) (h : http q = Except.error ()) :
    ddg_search http q num = [] := by
  unfold ddg_search
  rw [h]

theorem scrape_profile_error (fetch : String → Except Unit Page) (url : String)
    (h : fetch url = Except.error ()) : scrape_profile fetch url = defaultLead url := by
  unfold scrape_profile
  rw [h]

theorem scrape_profile_emptyPage (fetch : String → Except Unit Page) (url : String)
    (h : fetch url = Except.ok emptyPage) :
    scrape_profile fetch url = defaultLead url := by
  unfold scrape_profile
  rw [h]
  rfl

/-- C9: a failing search call or fetch call is caught and degrades to an
empty result for that item alone.  A failed query yields the empty result
list; replacing the failure by an empty success changes nothing anywhere in
the batch, so every other item is processed exactly as before and the batch
never aborts; a failed fetch yields the default-initialized record; and the
batch is the one-pass map over the URLs, so no retry occurs. -/
theorem per_item_failure_isolation (http : String → Except Unit (List RawResult))
    (fetch : String → Except Unit Page) (qbad ubad : String)
    (queries urls : List String) (num : Nat)
    (hq : http qbad = Except.error ()) (hu : fetch ubad = Except.error ()) :
    ddg_search http qbad num = [] ∧
    searchStage http num queries =
      searchStage (fun q => if q = qbad then Except.ok [] else http q) num queries ∧
    scrape_profile fetch ubad = defaultLead ubad ∧
    scrape_multiple_profiles fetch urls =
      scrape_multiple_profiles
        (fun u => if u = ubad then Except.ok emptyPage else fetch u) urls ∧
    scrape_multiple_profiles fetch urls =
      (urls.map (scrape_profile fetch)).filter fun l => l.name != "" := by
  refine ⟨ddg_search_error http qbad num hq, ?_, scrape_profile_error fetch ubad hu,
    ?_, scrape_multiple_eq_filter fetch urls⟩
  · unfold searchStage
    rw [foldl_append_many, foldl_append_many]
    congr 1
    congr 1
    apply List.map_congr_left
    intro q hq2
    by_cases hqb : q = qbad
    · subst hqb
      rw [ddg_search_error http q num hq]
      unfold ddg_search
      simp
    · have heq : (fun q => if q = qbad then Except.ok ([] : List RawResult) else http q) q =
          http q := by
        simp [hqb]
      unfold ddg_search
      rw [heq]
  · rw [scrape_multiple_eq_filter, scrape_multiple_eq_filter]
    congr 1
    apply List.map_congr_left
    intro u hu2
    by_cases hub : u = ubad
    · subst hub
      rw [scrape_profile_error fetch u hu,
        scrape_profile_emptyPage _ u (by rw [if_pos rfl])]
    · have heq : (fun u => if u = ubad then Except.ok emptyPage else fetch u) u =
          fetch u := by
        simp [hub]
      unfold scrape_profile
      rw [heq]

/-- A transport that always fails. -/
def failingHttp : String → Except Unit (List RawResult) := fun _ => Except.error ()

/-- A fetch that always fails. -/
def failingFetch : String → Except Unit Page := fun _ => Except.error ()

/-- Witness for C9 at concrete failing collaborators and a two-item batch. -/
theorem per_item_failure_isolation_witness :
    ddg_search failingHttp "q1" 10 = [] ∧
    searchStage failingHttp 10 ["q1", "q2"] =
      searchStage (fun q => if q = "q1" then Except.ok [] else failingHttp q) 10
        ["q1", "q2"] ∧
    scrape_profile failingFetch "u1" = defaultLead "u1" ∧
    scrape_multiple_profiles failingFetch ["u1", "u2"] =
      scrape_multiple_profiles
        (fun u => if u = "u1" then Except.ok emptyPage else failingFetch u)
        ["u1", "u2"] ∧
    scrape_multiple_profiles failingFetch ["u1", "u2"] =
      (["u1", "u2"].map (scrape_profile failingFetch)).filter fun l => l.name != "" :=
  per_item_failure_isolation failingHttp failingFetch "q1" "u1" ["q1", "q2"]
    ["u1", "u2"] 10 rfl rfl

end Aggregation

/-! ### DataExporter (src/data_exporter.py)

Writing to disk is modelled by the return value: an export either returns
`none` (the Python `None` of the empty-lead early return, before any file
is created) or `some` of the output path together with the rows that would
be written.  Experience entries are modelled by their text field, so the
`exp.get('position', '')` lookups of the CSV flattener yield the empty
string, as they do on the records the requests scraper produces. -/

namespace DataExporter

open Scraping Aggregation

/-- One flattened CSV row. -/
structure FlatRow where
  name : String
  company : String
  position : String
  location : String
  linkedin_url : String
  emails : String
  about : String
  headline : String
  previous_position : String
  previous_company : String
  social : List (String × String)
deriving DecidableEq

/-- One flattened Excel row (the smaller column set of the Leads sheet). -/
structure ExcelRow where
  name : String
  company : String
  position : String
  location : String
  linkedin_url : String
  emails : String
  headline : String
deriving DecidableEq

/-- The per-lead flattening of `export_to_csv`, with the `get` fallbacks of
the source: company falls back to `current_company`, position to
`current_position`, the profile URL to `url`, and `about` is truncated. -/
def flatten_lead (l : Lead) : FlatRow :=
  { name := l.name
    company := l.company.getD l.current_company
    position := l.title.getD l.current_position
    location := l.location
    linkedin_url := l.linkedin_url.getD l.url
    emails := pyJoin ", " l.emails
    about := if l.about ≠ "" then String.mk (l.about.data.take 200) else ""
    headline := l.headline
    previous_position := ""
    previous_company := ""
    social := l.social_links }

/-- The per-lead flattening of `export_to_excel`. -/
def flatten_lead_excel (l : Lead) : ExcelRow :=
  { name := l.name
    company := l.company.getD l.current_company
    position := l.title.getD l.current_position
    location := l.location
    linkedin_url := l.linkedin_url.getD l.url
    emails := pyJoin ", " l.emails
    headline := l.headline }

/-- Embedding of `DataExporter.export_to_csv`: empty input returns `None`
before any file is created. -/
def export_to_csv (leads : List Lead) (outputDir filename ts : String) :
    Option (String × List FlatRow) :=
  if leads.isEmpty then none
  else some (outputDir ++ "/" ++ filename ++ "_" ++ ts ++ ".csv",
    leads.map flatten_lead)

/-- Embedding of `DataExporter.export_to_json`. -/
def export_to_json (leads : List Lead) (outputDir filename ts : String) :
    Option (String × List Lead) :=
  if leads.isEmpty then none
  else some (outputDir ++ "/" ++ filename ++ "_" ++ ts ++ ".json", leads)

/-- Embedding of `DataExporter.export_to_excel`. -/
def export_to_excel (leads : List Lead) (outputDir filename ts : String) :
    Option (String × List ExcelRow) :=
  if leads.isEmpty then none
  else some (outputDir ++ "/" ++ filename ++ "_" ++ ts ++ ".xlsx",
    leads.map flatten_lead_excel)

/-- Embedding of the `export_leads` dispatcher of the scraper classes: the
format string selects the exporter, any unknown format falls back to CSV;
the caller receives the output path or `None`. -/
def export_leads (format : String) (leads : List Lead)
    (outputDir filename ts : String) : Option String :=
  if format = "csv" then (export_to_csv leads outputDir filename ts).map (·.1)
  else if format = "json" then (export_to_json leads outputDir filename ts).map (·.1)
  else if format = "excel" then (export_to_excel leads outputDir filename ts).map (·.1)
  else (export_to_csv leads outputDir filename ts).map (·.1)

/-- C10: every export method, and the dispatcher for every format string,
returns `None` for an empty lead list and creates no output file; a caller
never receives a path to an empty file for the valid empty-result outcome. -/
theorem export_empty_returns_none (outputDir filename ts : String) :
    (∀ format : String, export_leads format [] outputDir filename ts = none) ∧
    export_to_csv [] outputDir filename ts = none ∧
    export_to_json [] outputDir filename ts = none ∧
    export_to_excel [] outputDir filename ts = none := by
  refine ⟨?_, rfl, rfl, rfl⟩
  intro format
  unfold export_leads export_to_csv export_to_json export_to_excel
  simp only [List.isEmpty_nil, if_true]
  split_ifs <;> rfl

end DataExporter

end Scraping
